import Mathlib

/-!
Shallow embedding of `torchelastic/multiprocessing/spawn.py`: the worker
wrapper, the `ProcessContext` supervision engine (`join`), the error
taxonomy, the launch entry point `start_processes`, and the deprecated
`SpawnContext` alias.  Stateful Python code is modelled by explicit state
passing; external collaborators (the OS scheduler, `error_reporter`,
the platform signal table) are inputs to the functions that consult them.
-/

set_option autoImplicit false

namespace TorchElasticSpawn

/-- Parent-side view of one spawned worker process (a `multiprocessing.Process`
handle).  `exitcode` is the exit status observed once the process has
terminated (the source only reads `process.exitcode` after `process.join()`);
`aliveAtCascade` is what `process.is_alive()` returns when the termination
cascade inspects it. -/
structure Process where
  pid : Nat
  sentinel : Nat
  exitcode : Int
  aliveAtCascade : Bool
deriving DecidableEq, Repr

/-- Contents of a worker's `SimpleQueue` failure channel, oldest first. -/
abbrev Queue := List String

/-- Python truthiness of an optional string (`if error_report_msg:`):
`None` and the empty string are falsy. -/
def strTruthy : Option String → Bool
  | none => false
  | some s => !(s == "")

/-- The error taxonomy raised by `join`: `WorkerRaisedException`,
`WorkerSignaledException` and `WorkerExitedException`, each carrying
`error_index`, `error_pid` and its message.  For the signaled and exited
variants the message is the raw `error_reporter.get_error` result, which the
source passes straight to the base constructor (it may be `None`). -/
inductive FailureRecord where
  | raised (error_index : Nat) (error_pid : Nat) (msg : String)
  | signaled (error_index : Nat) (error_pid : Nat) (signal_name : String)
      (msg : Option String)
  | exited (error_index : Nat) (error_pid : Nat) (exit_code : Int)
      (msg : Option String)
deriving DecidableEq, Repr

/-- The failing worker index stored on a record. -/
def FailureRecord.errIndex : FailureRecord → Nat
  | .raised i _ _ => i
  | .signaled i _ _ _ => i
  | .exited i _ _ _ => i

/-- The message stored on a record (`None` possible on the signaled and
exited variants, as in the source). -/
def FailureRecord.message : FailureRecord → Option String
  | .raised _ _ m => some m
  | .signaled _ _ _ m => m
  | .exited _ _ _ m => m

/-- The string content of an optional message, reading `None` as empty. -/
def optMsg : Option String → String
  | none => ""
  | some s => s

/-- Constructor of `WorkerRaisedException`: when the error-report message is
truthy it is appended to `msg` behind a banner, otherwise `msg` is kept. -/
def mkWorkerRaisedException (error_index : Nat) (error_pid : Nat) (msg : String)
    (error_report_msg : Option String) : FailureRecord :=
  if strTruthy error_report_msg then
    .raised error_index error_pid
      (msg ++ "\n**Captured errors**\n" ++ optMsg error_report_msg)
  else
    .raised error_index error_pid msg

/-- Models the platform signal table `signal.Signals(n).name` (an external
collaborator: the Python `signal` module). -/
def signalName (n : Int) : String :=
  if n = 2 then "SIGINT"
  else if n = 9 then "SIGKILL"
  else if n = 15 then "SIGTERM"
  else "Signals_" ++ toString n

/-- The message header `"\n\n-- Process %d terminated with the following error:\n"`. -/
def errorHeader (error_index : Nat) : String :=
  "\n\n-- Process " ++ toString error_index ++
    " terminated with the following error:\n"

/-- The source's `self.sentinels` dict as an association list in insertion
order: `\x7bprocess.sentinel: index for index, process in enumerate(processes)\x7d`. -/
def mkSentinels (processes : List Process) : List (Nat × Nat) :=
  processes.enum.map (fun ip => (ip.2.sentinel, ip.1))

/-- `dict.pop(key)`: removes the entry for `key` and returns its value;
`none` models the `KeyError` when the key is absent. -/
def popAssoc : List (Nat × Nat) → Nat → Option (Nat × List (Nat × Nat))
  | [], _ => none
  | (k, v) :: rest, s =>
    if k = s then some (v, rest)
    else (popAssoc rest s).map (fun vr => (vr.1, (k, v) :: vr.2))

/-- The `ProcessContext` aggregate: `processes`, `error_queues` and the
mutable `sentinels` map. -/
structure ProcessContext where
  processes : List Process
  error_queues : List Queue
  sentinels : List (Nat × Nat)
deriving DecidableEq, Repr

/-- One step of the ready-scan loop in `join`: pop each ready sentinel from
the map, `process.join()` it, and stop at the first worker whose exit status
is non-zero.  Returns the updated sentinel map, the indices joined (in scan
order) and the designated error index, or `none` where the Python code would
crash (`KeyError` from `pop`, bad index). -/
def scanReady (processes : List Process) :
    List (Nat × Nat) → List Nat →
    Option (List (Nat × Nat) × List Nat × Option Nat)
  | sents, [] => some (sents, [], none)
  | sents, s :: rest =>
    match popAssoc sents s with
    | none => none
    | some (index, sents') =>
      match processes.get? index with
      | none => none
      | some p =>
        if p.exitcode ≠ 0 then some (sents', [index], some index)
        else (scanReady processes sents' rest).map
          (fun out => (out.1, index :: out.2.1, out.2.2))

/-- One observable action of the termination cascade. -/
inductive Action where
  | terminate (index : Nat)
  | wait (index : Nat)
deriving DecidableEq, Repr

/-- The cascade loop `for process in self.processes: if process.is_alive():
process.terminate(); process.join()`, as its sequence of actions. -/
def cascadeActions (processes : List Process) : List Action :=
  (processes.enum.map (fun ip =>
    (if ip.2.aliveAtCascade then [Action.terminate ip.1] else []) ++
      [Action.wait ip.1])).flatten

/-- Result of one `join` call: a boolean return or a raised record. -/
inductive JoinResult where
  | ret (b : Bool)
  | raise (r : FailureRecord)
deriving DecidableEq, Repr

/-- Everything one `join` call does: its result, the updated mutable state
(`sentinels`, `error_queues`), and its observable effects — whether the
wait-any primitive was entered, which workers were joined during the scan,
the cascade's actions, which failure channels were read with `get()`, which
pids were passed to `error_reporter.get_error`, and the designated error
index. -/
structure JoinOutput where
  result : JoinResult
  sentinels : List (Nat × Nat)
  error_queues : List Queue
  waited : Bool
  scanJoined : List Nat
  cascade : List Action
  queueReads : List Nat
  getErrorCalls : List Nat
  errorIndex : Option Nat
deriving DecidableEq, Repr

/-- The output of a `join` call that found `self.sentinels` already empty:
return `True` at once, touching nothing. -/
def joinNoOp (ctx : ProcessContext) : JoinOutput :=
  { result := .ret true, sentinels := ctx.sentinels,
    error_queues := ctx.error_queues, waited := false, scanJoined := [],
    cascade := [], queueReads := [], getErrorCalls := [],
    errorIndex := none }

/-- `ProcessContext.join`.  External inputs: `ready`, the subset of sentinel
keys the wait-any primitive `multiprocessing.connection.wait` reports ready
(empty on timeout), and `get_error`, the `error_reporter.get_error`
collaborator.  The source's local `error_pid` is inlined as `p.pid` and
`subprocess_error_msg` as `get_error p.pid`.  `none` models a crash of the
Python code itself (never reached under the well-formedness the constructor
guarantees). -/
def ProcessContext.join (ctx : ProcessContext) (ready : List Nat)
    (get_error : Nat → Option String) : Option JoinOutput :=
  if ctx.sentinels.length = 0 then
    some (joinNoOp ctx)
  else
    match scanReady ctx.processes ctx.sentinels ready with
    | none => none
    | some (sents', joined, errOpt) =>
      match errOpt with
      | none =>
        some { result := .ret sents'.isEmpty, sentinels := sents',
               error_queues := ctx.error_queues, waited := true,
               scanJoined := joined, cascade := [], queueReads := [],
               getErrorCalls := [], errorIndex := none }
      | some error_index =>
        match ctx.processes.get? error_index,
              ctx.error_queues.get? error_index with
        | some p, some q =>
          match q with
          | [] =>
            if p.exitcode < 0 then
              some { result := .raise (.signaled error_index p.pid
                       (signalName (-p.exitcode)) (get_error p.pid)),
                     sentinels := sents', error_queues := ctx.error_queues,
                     waited := true, scanJoined := joined,
                     cascade := cascadeActions ctx.processes, queueReads := [],
                     getErrorCalls := [p.pid],
                     errorIndex := some error_index }
            else
              some { result := .raise (.exited error_index p.pid
                       p.exitcode (get_error p.pid)),
                     sentinels := sents', error_queues := ctx.error_queues,
                     waited := true, scanJoined := joined,
                     cascade := cascadeActions ctx.processes, queueReads := [],
                     getErrorCalls := [p.pid],
                     errorIndex := some error_index }
          | original_trace :: qrest =>
            some { result := .raise (mkWorkerRaisedException error_index
                     p.pid (errorHeader error_index ++ original_trace)
                     (get_error p.pid)),
                   sentinels := sents',
                   error_queues := ctx.error_queues.set error_index qrest,
                   waited := true, scanJoined := joined,
                   cascade := cascadeActions ctx.processes,
                   queueReads := [error_index],
                   getErrorCalls := [p.pid],
                   errorIndex := some error_index }
        | _, _ => none

/-- How one invocation of the user function `fn(i, *args)` ends, partitioned
by the wrapper's `except` ladder: normal return; `KeyboardInterrupt`; an
ordinary `Exception` whose formatted traceback is `trace`; or any other
`BaseException` (e.g. `SystemExit`), which matches neither handler. -/
inductive FnOutcome where
  | normal
  | keyboardInterrupt
  | exn (trace : String)
  | otherBase
deriving DecidableEq, Repr

/-- How the wrapper itself ends: a normal return (the process then exits 0
through the epilogue), an explicit `sys.exit(c)`, or an exception escaping
the wrapper (the process fails without the wrapper writing anything). -/
inductive WrapBehavior where
  | returns
  | exits (code : Int)
  | propagates
deriving DecidableEq, Repr

/-- What one run of the wrapper does: the messages it `put` on its failure
channel, how it ends, and whether the user function was invoked at all. -/
structure WrapResult where
  writes : List String
  behavior : WrapBehavior
  fnInvoked : Bool
deriving DecidableEq, Repr

/-- The `try/except` body of `_wrap` around `fn(i, *args)`:
`KeyboardInterrupt` is swallowed (`pass`), an ordinary `Exception` puts the
traceback on the channel and calls `sys.exit(1)`, any other `BaseException`
matches no handler and propagates. -/
def wrapBody : FnOutcome → WrapResult
  | .normal => { writes := [], behavior := .returns, fnInvoked := true }
  | .keyboardInterrupt => { writes := [], behavior := .returns, fnInvoked := true }
  | .exn trace => { writes := [trace], behavior := .exits 1, fnInvoked := true }
  | .otherBase => { writes := [], behavior := .propagates, fnInvoked := true }

/-- Platform as seen by `_pr_set_pdeathsig`: whether
`ctypes.CDLL("libc.so.6")` loads, and what `prctl(PR_SET_PDEATHSIG, sig)`
returns when it does. -/
inductive Platform where
  | linuxPrctlOk
  | linuxPrctlFails
  | noLibc
deriving DecidableEq, Repr

/-- How `_pr_set_pdeathsig` ends on each platform. -/
inductive PdeathsigResult where
  | ok
  | osError
  | assertionError
deriving DecidableEq, Repr

/-- `_pr_set_pdeathsig(sig)`: `ctypes.CDLL("libc.so.6")` raises `OSError`
where that library does not exist; otherwise `assert not rv` raises
`AssertionError` when `prctl` returns non-zero. -/
def pr_set_pdeathsig : Platform → PdeathsigResult
  | .linuxPrctlOk => .ok
  | .linuxPrctlFails => .assertionError
  | .noLibc => .osError

/-- The whole of `_wrap`: `_pr_set_pdeathsig(signal.SIGINT)` runs before the
`try` block, so any exception it raises escapes the wrapper before `fn` is
invoked. -/
def wrapRun (platform : Platform) (outcome : FnOutcome) : WrapResult :=
  match pr_set_pdeathsig platform with
  | .ok => wrapBody outcome
  | _ => { writes := [], behavior := .propagates, fnInvoked := false }

/-- `_supports_context = sys.version_info >= (3, 4)`: true on every
interpreter this code can run on (the source targets Python 3). -/
def supports_context : Bool := true

/-- The message `_python_version_check` raises with when unsupported. -/
def pythonVersionError : String := "Requires python 3.4 or higher"

/-- `start_processes` up to and including assembling the `ProcessContext`:
the loop creates, per `i in range(nprocs)`, a fresh empty failure channel and
a process handle.  The OS-assigned identities (`pidOf`, `sentinelOf`) and the
workers' eventual behavior (`exitOf`, `aliveOf`) are external inputs.
`Except.error` models an exception raised before any process is created. -/
def start_processes_build (nprocs : Nat) (pidOf : Nat → Nat)
    (sentinelOf : Nat → Nat) (exitOf : Nat → Int) (aliveOf : Nat → Bool) :
    Except String ProcessContext :=
  if supports_context = false then .error pythonVersionError
  else
    let processes := (List.range nprocs).map (fun i =>
      { pid := pidOf i, sentinel := sentinelOf i, exitcode := exitOf i,
        aliveAtCascade := aliveOf i })
    let error_queues := (List.range nprocs).map (fun _ => ([] : Queue))
    .ok { processes := processes, error_queues := error_queues,
          sentinels := mkSentinels processes }

/-- Untyped positional argument values flowing into the initializers
(Python is dynamically typed, so `self` can stand where a list of processes
is expected). -/
inductive PyVal where
  | selfObj
  | procList (l : List Process)
  | queueList (l : List Queue)
deriving DecidableEq, Repr

/-- The two attributes `ProcessContext.__init__` binds from its parameters. -/
structure InitFields where
  processes_arg : PyVal
  error_queues_arg : PyVal
deriving DecidableEq, Repr

/-- Call semantics of `ProcessContext.__init__(self, processes,
error_queues)` applied to the positional arguments after the bound `self`:
exactly two bind to the two parameters; any other count raises `TypeError`
at the call, before the body runs. -/
def processContextInitBind (args : List PyVal) : Except String InitFields :=
  match args with
  | [processes, error_queues] =>
    if supports_context = false then .error pythonVersionError
    else .ok { processes_arg := processes, error_queues_arg := error_queues }
  | _ => .error "TypeError: arity mismatch"

/-- `SpawnContext.__init__(self, processes, error_queues)` calls
`super().__init__(self, processes, error_queues)`, so the base initializer
receives three positional arguments after its bound `self`. -/
def spawnContextInitBind (processes : PyVal) (error_queues : PyVal) :
    Except String InitFields :=
  processContextInitBind [PyVal.selfObj, processes, error_queues]

/-! ### String containment helpers -/

/-- `b` starts with `a`. -/
def strStarts (b a : String) : Prop := ∃ t, b = a ++ t

/-- `b` ends with `a`. -/
def strEnds (b a : String) : Prop := ∃ s, b = s ++ a

/-- `a` occurs contiguously inside `b`. -/
def strContains (b a : String) : Prop := ∃ s t, b = s ++ a ++ t

theorem strContains_self (a : String) : strContains a a :=
  ⟨"", "", by rw [String.empty_append, String.append_empty]⟩

theorem strContains_append_left (pre m a : String) (h : strContains m a) :
    strContains (pre ++ m) a := by
  obtain ⟨s, t, rfl⟩ := h
  exact ⟨pre ++ s, t, by simp [String.append_assoc]⟩

theorem strContains_append_right (m post a : String) (h : strContains m a) :
    strContains (m ++ post) a := by
  obtain ⟨s, t, rfl⟩ := h
  exact ⟨s, t ++ post, by simp [String.append_assoc]⟩

/-! ### Lemmas about `popAssoc` and `scanReady` -/

theorem popAssoc_sublist :
    ∀ (l : List (Nat × Nat)) (s v : Nat) (l' : List (Nat × Nat)),
      popAssoc l s = some (v, l') → l'.Sublist l := by
  intro l
  induction l with
  | nil => intro s v l' h; simp [popAssoc] at h
  | cons hd rest ih =>
    intro s v l' h
    obtain ⟨k, w⟩ := hd
    simp only [popAssoc] at h
    split at h
    · cases h; exact (List.Sublist.refl rest).cons _
    · rw [Option.map_eq_some'] at h
      obtain ⟨⟨v2, rest2⟩, hrec, hf⟩ := h
      cases hf
      exact (ih s v2 rest2 hrec).cons₂ _

theorem popAssoc_mem :
    ∀ (l : List (Nat × Nat)) (s v : Nat) (l' : List (Nat × Nat)),
      popAssoc l s = some (v, l') → ∀ kv ∈ l, kv ∈ l' ∨ kv.1 = s := by
  intro l
  induction l with
  | nil => intro s v l' h; simp [popAssoc] at h
  | cons hd rest ih =>
    intro s v l' h kv hkv
    obtain ⟨k, w⟩ := hd
    simp only [popAssoc] at h
    split at h
    next heq =>
      cases h
      rcases List.mem_cons.mp hkv with rfl | hmem
      · exact Or.inr heq
      · exact Or.inl hmem
    next hne =>
      rw [Option.map_eq_some'] at h
      obtain ⟨⟨v2, rest2⟩, hrec, hf⟩ := h
      cases hf
      rcases List.mem_cons.mp hkv with rfl | hmem
      · exact Or.inl (List.mem_cons_self _ _)
      · rcases ih s v2 rest2 hrec kv hmem with h1 | h2
        · exact Or.inl (List.mem_cons_of_mem _ h1)
        · exact Or.inr h2

theorem scanReady_sublist (processes : List Process) :
    ∀ (ready : List Nat) (sents sents' : List (Nat × Nat))
      (joined : List Nat) (err : Option Nat),
      scanReady processes sents ready = some (sents', joined, err) →
      sents'.Sublist sents := by
  intro ready
  induction ready with
  | nil =>
    intro sents sents' joined err h
    unfold scanReady at h
    cases h
    exact List.Sublist.refl _
  | cons s rest ih =>
    intro sents sents' joined err h
    unfold scanReady at h
    split at h
    · cases h
    next index sents1 hpop =>
      split at h
      · cases h
      next p hget =>
        split at h
        · cases h; exact popAssoc_sublist _ _ _ _ hpop
        · rw [Option.map_eq_some'] at h
          obtain ⟨⟨sents2, joined2, err2⟩, hscan, hf⟩ := h
          cases hf
          exact (ih sents1 sents2 joined2 err2 hscan).trans
            (popAssoc_sublist sents s index sents1 hpop)

theorem scanReady_mem (processes : List Process) :
    ∀ (ready : List Nat) (sents sents' : List (Nat × Nat))
      (joined : List Nat) (err : Option Nat),
      scanReady processes sents ready = some (sents', joined, err) →
      ∀ kv ∈ sents, kv ∈ sents' ∨ kv.1 ∈ ready := by
  intro ready
  induction ready with
  | nil =>
    intro sents sents' joined err h kv hkv
    unfold scanReady at h
    cases h
    exact Or.inl hkv
  | cons s rest ih =>
    intro sents sents' joined err h kv hkv
    unfold scanReady at h
    split at h
    · cases h
    next index sents1 hpop =>
      split at h
      · cases h
      next p hget =>
        have hbase := popAssoc_mem sents s index sents1 hpop kv hkv
        split at h
        · cases h
          rcases hbase with h1 | h2
          · exact Or.inl h1
          · exact Or.inr (h2 ▸ List.mem_cons_self s rest)
        · rw [Option.map_eq_some'] at h
          obtain ⟨⟨sents2, joined2, err2⟩, hscan, hf⟩ := h
          cases hf
          rcases hbase with h1 | h2
          · rcases ih sents1 sents2 joined2 err2 hscan kv h1 with h3 | h4
            · exact Or.inl h3
            · exact Or.inr (List.mem_cons_of_mem s h4)
          · exact Or.inr (h2 ▸ List.mem_cons_self s rest)

theorem scanReady_err (processes : List Process) :
    ∀ (ready : List Nat) (sents sents' : List (Nat × Nat))
      (joined : List Nat) (i : Nat),
      scanReady processes sents ready = some (sents', joined, some i) →
      ∃ p, processes.get? i = some p ∧ p.exitcode ≠ 0 := by
  intro ready
  induction ready with
  | nil =>
    intro sents sents' joined i h
    unfold scanReady at h
    cases h
  | cons s rest ih =>
    intro sents sents' joined i h
    unfold scanReady at h
    split at h
    · cases h
    next index sents1 hpop =>
      split at h
      · cases h
      next p hget =>
        split at h
        next hex =>
          simp only [Option.some.injEq, Prod.mk.injEq] at h
          obtain ⟨-, -, rfl⟩ := h
          exact ⟨p, hget, hex⟩
        · rw [Option.map_eq_some'] at h
          obtain ⟨⟨sents2, joined2, err2⟩, hscan, hf⟩ := h
          simp only [Prod.mk.injEq] at hf
          obtain ⟨-, -, rfl⟩ := hf
          exact ih sents1 sents2 joined2 i hscan

/-- Master characterization of one `join` call, proven once and reused:
sentinel-map monotonicity, the no-op behavior on an empty map, the frame of
the success path, and the full classification and effects of the failure
path. -/
theorem join_spec (ctx : ProcessContext) (ready : List Nat)
    (ge : Nat → Option String) (out : JoinOutput)
    (hj : ctx.join ready ge = some out) :
    out.sentinels.Sublist ctx.sentinels ∧
    (∀ kv ∈ ctx.sentinels, kv ∈ out.sentinels ∨ kv.1 ∈ ready) ∧
    (ctx.sentinels = [] → out = joinNoOp ctx) ∧
    (out.errorIndex = none →
      out.error_queues = ctx.error_queues ∧ out.cascade = [] ∧
      out.queueReads = [] ∧ out.getErrorCalls = [] ∧
      ∃ b, out.result = JoinResult.ret b) ∧
    (∀ r, out.result = JoinResult.raise r → ∃ i, out.errorIndex = some i) ∧
    (∀ i, out.errorIndex = some i →
      ∃ p q, ctx.processes.get? i = some p ∧
        ctx.error_queues.get? i = some q ∧
        p.exitcode ≠ 0 ∧
        out.cascade = cascadeActions ctx.processes ∧
        out.getErrorCalls = [p.pid] ∧
        (q = [] → out.queueReads = [] ∧ out.error_queues = ctx.error_queues ∧
          (p.exitcode < 0 →
            out.result = JoinResult.raise (FailureRecord.signaled i p.pid
              (signalName (-p.exitcode)) (ge p.pid))) ∧
          (0 ≤ p.exitcode →
            out.result = JoinResult.raise (FailureRecord.exited i p.pid
              p.exitcode (ge p.pid)))) ∧
        (∀ t rest, q = t :: rest →
          out.queueReads = [i] ∧
          out.error_queues = ctx.error_queues.set i rest ∧
          out.result = JoinResult.raise (mkWorkerRaisedException i p.pid
            (errorHeader i ++ t) (ge p.pid)))) := by
  unfold ProcessContext.join at hj
  split at hj
  next hempty =>
    cases hj
    have hnil : ctx.sentinels = [] := List.eq_nil_of_length_eq_zero hempty
    refine ⟨List.Sublist.refl _, fun kv hkv => Or.inl hkv, fun _ => rfl,
      fun _ => ⟨rfl, rfl, rfl, rfl, true, rfl⟩, ?_, ?_⟩
    · intro r hr; cases hr
    · intro i hi; cases hi
  next hnonempty =>
    split at hj
    · cases hj
    next sents' joined errOpt hscan =>
      have hnil : ¬ ctx.sentinels = [] := by
        intro h; exact hnonempty (by simp [h])
      split at hj
      · cases hj
        refine ⟨scanReady_sublist _ _ _ _ _ _ hscan,
          scanReady_mem _ _ _ _ _ _ hscan,
          fun h => absurd h hnil,
          fun _ => ⟨rfl, rfl, rfl, rfl, sents'.isEmpty, rfl⟩, ?_, ?_⟩
        · intro r hr; cases hr
        · intro i hi; cases hi
      next error_index =>
        obtain ⟨p0, hp0, hex0⟩ := scanReady_err ctx.processes ready
          ctx.sentinels sents' joined error_index hscan
        split at hj
        next p q hp hq =>
          have hpp : p0 = p := by rw [hp0] at hp; exact Option.some.inj hp
          subst hpp
          split at hj
          · split at hj
            next hneg =>
              cases hj
              refine ⟨scanReady_sublist _ _ _ _ _ _ hscan,
                scanReady_mem _ _ _ _ _ _ hscan,
                fun h => absurd h hnil, ?_, ?_, ?_⟩
              · intro h; cases h
              · intro r _; exact ⟨error_index, rfl⟩
              · intro i hi
                obtain rfl : error_index = i := Option.some.inj hi
                refine ⟨p0, [], hp0, hq, hex0, rfl, rfl,
                  fun _ => ⟨rfl, rfl, fun _ => rfl,
                    fun hle => absurd hle (not_le.mpr hneg)⟩, ?_⟩
                intro t rest h; cases h
            next hneg =>
              cases hj
              have hle : 0 ≤ p0.exitcode := le_of_not_lt hneg
              refine ⟨scanReady_sublist _ _ _ _ _ _ hscan,
                scanReady_mem _ _ _ _ _ _ hscan,
                fun h => absurd h hnil, ?_, ?_, ?_⟩
              · intro h; cases h
              · intro r _; exact ⟨error_index, rfl⟩
              · intro i hi
                obtain rfl : error_index = i := Option.some.inj hi
                refine ⟨p0, [], hp0, hq, hex0, rfl, rfl,
                  fun _ => ⟨rfl, rfl,
                    fun hlt => absurd hlt (not_lt.mpr hle), fun _ => rfl⟩, ?_⟩
                intro t rest h; cases h
          next t qrest =>
            cases hj
            refine ⟨scanReady_sublist _ _ _ _ _ _ hscan,
              scanReady_mem _ _ _ _ _ _ hscan,
              fun h => absurd h hnil, ?_, ?_, ?_⟩
            · intro h; cases h
            · intro r _; exact ⟨error_index, rfl⟩
            · intro i hi
              obtain rfl : error_index = i := Option.some.inj hi
              refine ⟨p0, t :: qrest, hp0, hq, hex0, rfl, rfl, ?_, ?_⟩
              · intro h; cases h
              · intro t' rest' h
                obtain ⟨rfl, rfl⟩ : t = t' ∧ qrest = rest' := by
                  cases h; exact ⟨rfl, rfl⟩
                exact ⟨rfl, rfl, rfl⟩
        all_goals cases hj

/-! ### Small helper lemmas -/

theorem mkWorkerRaisedException_errIndex (i pid : Nat) (msg : String)
    (rep : Option String) :
    (mkWorkerRaisedException i pid msg rep).errIndex = i := by
  unfold mkWorkerRaisedException
  split <;> rfl

theorem mkWorkerRaisedException_message (i pid : Nat) (msg : String)
    (rep : Option String) :
    (mkWorkerRaisedException i pid msg rep).message =
      some (if strTruthy rep then
        msg ++ "\n**Captured errors**\n" ++ optMsg rep else msg) := by
  unfold mkWorkerRaisedException
  split <;> simp_all [FailureRecord.message]

theorem optMsg_of_not_truthy (o : Option String) (h : strTruthy o = false) :
    optMsg o = "" := by
  cases o with
  | none => rfl
  | some s =>
    simp only [strTruthy, Bool.not_eq_false', beq_iff_eq] at h
    simp [optMsg, h]

theorem flatten_decomp {α : Type} :
    ∀ (L : List (List α)) (x : List α), x ∈ L →
      ∃ l1 l2, L.flatten = l1 ++ (x ++ l2) := by
  intro L
  induction L with
  | nil => intro x hx; cases hx
  | cons hd tl ih =>
    intro x hx
    rcases List.mem_cons.mp hx with rfl | hmem
    · exact ⟨[], tl.flatten, by simp⟩
    · obtain ⟨l1, l2, he⟩ := ih x hmem
      exact ⟨hd ++ l1, l2, by simp [he]⟩

theorem cascadeActions_terminate (processes : List Process) (ip : Nat × Process)
    (hmem : ip ∈ processes.enum) (halive : ip.2.aliveAtCascade = true) :
    ∃ l1 l2, cascadeActions processes =
      l1 ++ ([Action.terminate ip.1, Action.wait ip.1] ++ l2) := by
  have hx : [Action.terminate ip.1, Action.wait ip.1] ∈
      processes.enum.map (fun jp =>
        (if jp.2.aliveAtCascade then [Action.terminate jp.1] else []) ++
          [Action.wait jp.1]) := by
    refine List.mem_map.mpr ⟨ip, hmem, ?_⟩
    rw [halive]
    rfl
  exact flatten_decomp _ _ hx

theorem cascadeActions_wait (processes : List Process) (ip : Nat × Process)
    (hmem : ip ∈ processes.enum) :
    Action.wait ip.1 ∈ cascadeActions processes := by
  unfold cascadeActions
  rw [List.mem_flatten]
  refine ⟨(if ip.2.aliveAtCascade then [Action.terminate ip.1] else []) ++
    [Action.wait ip.1], List.mem_map.mpr ⟨ip, hmem, rfl⟩, ?_⟩
  simp

/-! ### Concrete fixtures used by the witnesses -/

/-- The `get_error` collaborator returning no extended diagnostics. -/
def geNone : Nat → Option String := fun _ => none

/-- The `get_error` collaborator returning the text REPORT for every pid. -/
def geRep : Nat → Option String := fun _ => some "REPORT"

/-- A worker handle that exited 1 after writing its traceback. -/
def pFail : Process :=
  { pid := 42, sentinel := 7, exitcode := 1, aliveAtCascade := false }

/-- A one-worker context whose worker raised: its channel holds a traceback. -/
def ctxRaised : ProcessContext :=
  { processes := [pFail], error_queues := [["Traceback: boom"]],
    sentinels := [(7, 0)] }

/-- The output of `ctxRaised.join [7] geNone`. -/
def outRaised : JoinOutput :=
  { result := .raise (mkWorkerRaisedException 0 42
      (errorHeader 0 ++ "Traceback: boom") none),
    sentinels := [], error_queues := [[]], waited := true, scanJoined := [0],
    cascade := [Action.wait 0], queueReads := [0], getErrorCalls := [42],
    errorIndex := some 0 }

/-- The output of `ctxRaised.join [7] geRep`. -/
def outRaisedRep : JoinOutput :=
  { result := .raise (mkWorkerRaisedException 0 42
      (errorHeader 0 ++ "Traceback: boom") (some "REPORT")),
    sentinels := [], error_queues := [[]], waited := true, scanJoined := [0],
    cascade := [Action.wait 0], queueReads := [0], getErrorCalls := [42],
    errorIndex := some 0 }

/-- The failing record's message content before the error-report text is
taken into account: the header-plus-traceback string when the channel holds
a message, and nothing when the channel is empty (the signaled and exited
constructors receive the report itself as their message). -/
def recordMsgBase (error_index : Nat) (q : Queue) : Option String :=
  match q with
  | [] => none
  | t :: _ => some (errorHeader error_index ++ t)

/-- A worker handle for a worker whose `SystemExit(9)` escaped the wrapper:
exit code 9, nothing on the channel. -/
def pExited : Process :=
  { pid := 44, sentinel := 3, exitcode := 9, aliveAtCascade := false }

/-- A one-worker context whose worker hard-exited 9 with an empty channel. -/
def ctxExited : ProcessContext :=
  { processes := [pExited], error_queues := [[]], sentinels := [(3, 0)] }

/-- The output of `ctxExited.join [3] geNone`. -/
def outExited : JoinOutput :=
  { result := .raise (.exited 0 44 9 none), sentinels := [],
    error_queues := [[]], waited := true, scanJoined := [0],
    cascade := [Action.wait 0], queueReads := [], getErrorCalls := [44],
    errorIndex := some 0 }

/-- An already-joined group: no workers, no channels, empty sentinel map. -/
def ctxEmpty : ProcessContext :=
  { processes := [], error_queues := [], sentinels := [] }

/-- A two-worker group: worker 0 exited 7 with an empty channel, worker 1
still alive when the cascade inspects it. -/
def ctxPair : ProcessContext :=
  { processes :=
      [{ pid := 42, sentinel := 7, exitcode := 7, aliveAtCascade := false },
       { pid := 43, sentinel := 8, exitcode := 0, aliveAtCascade := true }],
    error_queues := [[], []], sentinels := [(7, 0), (8, 1)] }

/-- The output of `ctxPair.join [7] geNone`. -/
def outPair : JoinOutput :=
  { result := .raise (.exited 0 42 7 none), sentinels := [(8, 1)],
    error_queues := [[], []], waited := true, scanJoined := [0],
    cascade := [Action.wait 0, Action.terminate 1, Action.wait 1],
    queueReads := [], getErrorCalls := [42], errorIndex := some 0 }

/-! ### Claims -/

/-- C1: when `join` designates a failing worker, the raised error is
classified exactly by: non-empty failure channel → raised-exception record
built from that message; empty channel and negative exit status →
terminated-by-signal record with the signal's symbolic name; empty channel
and non-negative exit status → exited-non-zero record with the numeric
exit code. -/
theorem C1_failure_classification (ctx : ProcessContext) (ready : List Nat)
    (ge : Nat → Option String) (out : JoinOutput) (i : Nat)
    (hj : ctx.join ready ge = some out) (hi : out.errorIndex = some i) :
    ∃ p q, ctx.processes.get? i = some p ∧
      ctx.error_queues.get? i = some q ∧
      (∀ t rest, q = t :: rest →
        out.result = JoinResult.raise (mkWorkerRaisedException i p.pid
          (errorHeader i ++ t) (ge p.pid))) ∧
      (q = [] → p.exitcode < 0 →
        out.result = JoinResult.raise (FailureRecord.signaled i p.pid
          (signalName (-p.exitcode)) (ge p.pid))) ∧
      (q = [] → 0 ≤ p.exitcode →
        out.result = JoinResult.raise (FailureRecord.exited i p.pid
          p.exitcode (ge p.pid))) := by
  obtain ⟨-, -, -, -, -, hfail⟩ := join_spec ctx ready ge out hj
  obtain ⟨p, q, hp, hq, -, -, -, hqnil, hqcons⟩ := hfail i hi
  refine ⟨p, q, hp, hq, ?_, ?_, ?_⟩
  · intro t rest ht; exact (hqcons t rest ht).2.2
  · intro h0 hneg; exact (hqnil h0).2.2.1 hneg
  · intro h0 hle; exact (hqnil h0).2.2.2 hle

/-- Witness for C1 at the concrete one-worker context whose channel holds a
traceback. -/
theorem C1_failure_classification_witness :
    ctxRaised.join [7] geNone = some outRaised ∧
    outRaised.errorIndex = some 0 ∧
    (∃ p q, ctxRaised.processes.get? 0 = some p ∧
      ctxRaised.error_queues.get? 0 = some q ∧
      (∀ t rest, q = t :: rest →
        outRaised.result = JoinResult.raise (mkWorkerRaisedException 0 p.pid
          (errorHeader 0 ++ t) (geNone p.pid))) ∧
      (q = [] → p.exitcode < 0 →
        outRaised.result = JoinResult.raise (FailureRecord.signaled 0 p.pid
          (signalName (-p.exitcode)) (geNone p.pid))) ∧
      (q = [] → 0 ≤ p.exitcode →
        outRaised.result = JoinResult.raise (FailureRecord.exited 0 p.pid
          p.exitcode (geNone p.pid)))) :=
  ⟨rfl, rfl, C1_failure_classification ctxRaised [7] geNone outRaised 0 rfl rfl⟩

/-- C2: if worker `k`'s user function raises an exception whose traceback
contains `M` (so the wrapper put the traceback on its channel and exited 1),
and `join` designates worker `k`, then the raised record's failing index is
`k` and its message contains `M`. -/
theorem C2_exception_propagation (ctx : ProcessContext) (ready : List Nat)
    (ge : Nat → Option String) (out : JoinOutput) (k : Nat)
    (trace M : String) (p : Process)
    (hp : ctx.processes.get? k = some p)
    (hexit : p.exitcode = 1)
    (hq : ctx.error_queues.get? k =
      some (wrapBody (FnOutcome.exn trace)).writes)
    (hM : strContains trace M)
    (hj : ctx.join ready ge = some out)
    (hk : out.errorIndex = some k) :
    ∃ r, out.result = JoinResult.raise r ∧ r.errIndex = k ∧
      strContains (optMsg r.message) M := by
  obtain ⟨-, -, -, -, -, hfail⟩ := join_spec ctx ready ge out hj
  obtain ⟨p', q, hp', hq', -, -, -, -, hqcons⟩ := hfail k hk
  have hqt : q = [trace] := by
    rw [hq] at hq'
    exact (Option.some.inj hq').symm
  obtain ⟨-, -, hres⟩ := hqcons trace [] hqt
  refine ⟨_, hres, mkWorkerRaisedException_errIndex _ _ _ _, ?_⟩
  rw [mkWorkerRaisedException_message]
  have hbase : strContains (errorHeader k ++ trace) M :=
    strContains_append_left _ _ _ hM
  split
  · exact strContains_append_right _ _ _
      (strContains_append_right _ _ _ hbase)
  · exact hbase

/-- Witness for C2 at the concrete context: the traceback contains boom. -/
theorem C2_exception_propagation_witness :
    ctxRaised.processes.get? 0 = some pFail ∧
    pFail.exitcode = 1 ∧
    ctxRaised.error_queues.get? 0 =
      some (wrapBody (FnOutcome.exn "Traceback: boom")).writes ∧
    strContains "Traceback: boom" "boom" ∧
    ctxRaised.join [7] geNone = some outRaised ∧
    outRaised.errorIndex = some 0 ∧
    (∃ r, outRaised.result = JoinResult.raise r ∧ r.errIndex = 0 ∧
      strContains (optMsg r.message) "boom") :=
  ⟨rfl, rfl, rfl, ⟨"Traceback: ", "", rfl⟩, rfl, rfl,
    C2_exception_propagation ctxRaised [7] geNone outRaised 0
      "Traceback: boom" "boom" pFail rfl rfl rfl ⟨"Traceback: ", "", rfl⟩
      rfl rfl⟩

/-- C3: whenever `join` designates a failing worker, the raised output's
termination cascade sends every still-alive worker a termination request
immediately followed by a wait, and waits on every worker of the group, so
no worker outlives a failed sibling.  In the embedding the cascade is part
of the same `join` output as the raised record, mirroring that the source
runs the cascade before constructing and raising the error. -/
theorem C3_cascading_termination (ctx : ProcessContext) (ready : List Nat)
    (ge : Nat → Option String) (out : JoinOutput) (r : FailureRecord)
    (hj : ctx.join ready ge = some out)
    (hr : out.result = JoinResult.raise r) :
    (∀ ip ∈ ctx.processes.enum, ip.2.aliveAtCascade = true →
      ∃ l1 l2, out.cascade =
        l1 ++ ([Action.terminate ip.1, Action.wait ip.1] ++ l2)) ∧
    (∀ ip ∈ ctx.processes.enum, Action.wait ip.1 ∈ out.cascade) := by
  obtain ⟨-, -, -, -, hdes, hfail⟩ := join_spec ctx ready ge out hj
  obtain ⟨i, hi⟩ := hdes r hr
  obtain ⟨p, q, -, -, -, hcas, -, -, -⟩ := hfail i hi
  rw [hcas]
  exact ⟨fun ip hmem halive => cascadeActions_terminate ctx.processes ip
      hmem halive,
    fun ip hmem => cascadeActions_wait ctx.processes ip hmem⟩

/-- Witness for C3: a two-worker group where worker 0 fails and worker 1 is
still alive at cascade time. -/
theorem C3_cascading_termination_witness :
    ctxPair.join [7] geNone = some outPair ∧
    outPair.result = JoinResult.raise (FailureRecord.exited 0 42 7 none) ∧
    ((∀ ip ∈ ctxPair.processes.enum, ip.2.aliveAtCascade = true →
      ∃ l1 l2, outPair.cascade =
        l1 ++ ([Action.terminate ip.1, Action.wait ip.1] ++ l2)) ∧
    (∀ ip ∈ ctxPair.processes.enum, Action.wait ip.1 ∈ outPair.cascade)) :=
  ⟨rfl, rfl, C3_cascading_termination ctxPair [7] geNone outPair
    (FailureRecord.exited 0 42 7 none) rfl rfl⟩

/-- C4: the sentinel map of a `join` call only shrinks (the new map is a
sublist of the old), every removed entry has its key among the ready
sentinels, and on an already-empty map the call returns true immediately
without waiting and without mutating anything. -/
theorem C4_sentinels_shrink (ctx : ProcessContext) (ready : List Nat)
    (ge : Nat → Option String) (out : JoinOutput)
    (hj : ctx.join ready ge = some out) :
    out.sentinels.Sublist ctx.sentinels ∧
    (∀ kv ∈ ctx.sentinels, kv ∈ out.sentinels ∨ kv.1 ∈ ready) ∧
    (ctx.sentinels = [] →
      out.result = JoinResult.ret true ∧ out.sentinels = ctx.sentinels ∧
      out.error_queues = ctx.error_queues ∧ out.waited = false ∧
      out.cascade = [] ∧ out.queueReads = [] ∧ out.getErrorCalls = []) := by
  obtain ⟨h1, h2, h3, -, -, -⟩ := join_spec ctx ready ge out hj
  refine ⟨h1, h2, fun h => ?_⟩
  rw [h3 h]
  exact ⟨rfl, rfl, rfl, rfl, rfl, rfl, rfl⟩

/-- Witness for C4 at an already-joined (empty) context. -/
theorem C4_sentinels_shrink_witness :
    ctxEmpty.join [] geNone = some (joinNoOp ctxEmpty) ∧
    ((joinNoOp ctxEmpty).sentinels.Sublist ctxEmpty.sentinels ∧
    (∀ kv ∈ ctxEmpty.sentinels,
      kv ∈ (joinNoOp ctxEmpty).sentinels ∨ kv.1 ∈ ([] : List Nat)) ∧
    (ctxEmpty.sentinels = [] →
      (joinNoOp ctxEmpty).result = JoinResult.ret true ∧
      (joinNoOp ctxEmpty).sentinels = ctxEmpty.sentinels ∧
      (joinNoOp ctxEmpty).error_queues = ctxEmpty.error_queues ∧
      (joinNoOp ctxEmpty).waited = false ∧
      (joinNoOp ctxEmpty).cascade = [] ∧
      (joinNoOp ctxEmpty).queueReads = [] ∧
      (joinNoOp ctxEmpty).getErrorCalls = [])) :=
  ⟨rfl, C4_sentinels_shrink ctxEmpty [] geNone (joinNoOp ctxEmpty) rfl⟩

/-- C5 counterexample: `start_processes` with `nprocs = 0` is not rejected —
it returns successfully having created no process, and the blocking-join
loop's first `join()` call immediately returns true. -/
theorem C5_nprocs_zero_counterexample :
    start_processes_build 0 (fun i => i) (fun i => i) (fun _ => 0)
      (fun _ => false) = Except.ok ctxEmpty ∧
    ctxEmpty.processes = [] ∧
    ctxEmpty.join [] geNone = some (joinNoOp ctxEmpty) ∧
    (joinNoOp ctxEmpty).result = JoinResult.ret true :=
  ⟨rfl, rfl, rfl, rfl⟩

/-- C5 (amended): launching with `nprocs = 0` is not rejected: no process is
created, the assembled context is empty, and a blocking launch completes
immediately with success (`join` returns true on the empty group). -/
theorem C5_nprocs_zero_no_rejection (pidOf sentinelOf : Nat → Nat)
    (exitOf : Nat → Int) (aliveOf : Nat → Bool) (ge : Nat → Option String) :
    ∃ ctx, start_processes_build 0 pidOf sentinelOf exitOf aliveOf =
        Except.ok ctx ∧
      ctx.processes = [] ∧
      ctx.join [] ge = some (joinNoOp ctx) ∧
      (joinNoOp ctx).result = JoinResult.ret true :=
  ⟨ctxEmpty, rfl, rfl, rfl, rfl⟩

/-- C6: whatever the classification, `join` fetches the extended diagnostics
for the failing worker's pid from the error-report collaborator; when the
fetched text is truthy the record's message starts with its pre-report
content and ends with the fetched text, and otherwise the message's content
is exactly the pre-report content. -/
theorem C6_error_report_appended (ctx : ProcessContext) (ready : List Nat)
    (ge : Nat → Option String) (out : JoinOutput) (i : Nat)
    (hj : ctx.join ready ge = some out) (hi : out.errorIndex = some i) :
    ∃ p q r, ctx.processes.get? i = some p ∧
      ctx.error_queues.get? i = some q ∧
      out.getErrorCalls = [p.pid] ∧
      out.result = JoinResult.raise r ∧
      (strTruthy (ge p.pid) = true →
        strStarts (optMsg r.message) (optMsg (recordMsgBase i q)) ∧
        strEnds (optMsg r.message) (optMsg (ge p.pid))) ∧
      (strTruthy (ge p.pid) = false →
        optMsg r.message = optMsg (recordMsgBase i q)) := by
  obtain ⟨-, -, -, -, -, hfail⟩ := join_spec ctx ready ge out hj
  obtain ⟨p, q, hp, hq, hex, -, hgec, hqnil, hqcons⟩ := hfail i hi
  cases q with
  | nil =>
    by_cases hneg : p.exitcode < 0
    · obtain ⟨-, -, hres, -⟩ := hqnil rfl
      refine ⟨p, [], FailureRecord.signaled i p.pid
        (signalName (-p.exitcode)) (ge p.pid), hp, hq, hgec, hres hneg,
        ?_, ?_⟩
      · intro htru
        refine ⟨⟨optMsg (ge p.pid), ?_⟩, ⟨"", ?_⟩⟩ <;>
          simp [FailureRecord.message, recordMsgBase, optMsg,
            String.empty_append]
      · intro hfls
        exact optMsg_of_not_truthy _ hfls
    · obtain ⟨-, -, -, hres⟩ := hqnil rfl
      refine ⟨p, [], FailureRecord.exited i p.pid p.exitcode (ge p.pid),
        hp, hq, hgec, hres (le_of_not_lt hneg), ?_, ?_⟩
      · intro htru
        refine ⟨⟨optMsg (ge p.pid), ?_⟩, ⟨"", ?_⟩⟩ <;>
          simp [FailureRecord.message, recordMsgBase, optMsg,
            String.empty_append]
      · intro hfls
        exact optMsg_of_not_truthy _ hfls
  | cons t rest =>
    obtain ⟨-, -, hres⟩ := hqcons t rest rfl
    refine ⟨p, t :: rest, mkWorkerRaisedException i p.pid
      (errorHeader i ++ t) (ge p.pid), hp, hq, hgec, hres, ?_, ?_⟩
    · intro htru
      rw [mkWorkerRaisedException_message, if_pos htru]
      constructor
      · exact ⟨"\n**Captured errors**\n" ++ optMsg (ge p.pid), by
          simp [optMsg, recordMsgBase, String.append_assoc]⟩
      · exact ⟨(errorHeader i ++ t) ++ "\n**Captured errors**\n", rfl⟩
    · intro hfls
      rw [mkWorkerRaisedException_message, if_neg (by simp [hfls])]
      simp [optMsg, recordMsgBase]

/-- Witness for C6 at the concrete context with a truthy report. -/
theorem C6_error_report_appended_witness :
    ctxRaised.join [7] geRep = some outRaisedRep ∧
    outRaisedRep.errorIndex = some 0 ∧
    (∃ p q r, ctxRaised.processes.get? 0 = some p ∧
      ctxRaised.error_queues.get? 0 = some q ∧
      outRaisedRep.getErrorCalls = [p.pid] ∧
      outRaisedRep.result = JoinResult.raise r ∧
      (strTruthy (geRep p.pid) = true →
        strStarts (optMsg r.message) (optMsg (recordMsgBase 0 q)) ∧
        strEnds (optMsg r.message) (optMsg (geRep p.pid))) ∧
      (strTruthy (geRep p.pid) = false →
        optMsg r.message = optMsg (recordMsgBase 0 q))) :=
  ⟨rfl, rfl, C6_error_report_appended ctxRaised [7] geRep outRaisedRep 0
    rfl rfl⟩

/-- C7: the claim that arranging the parent-death signal never makes the
worker fail before invoking the user function is contradicted by the code:
where `libc.so.6` cannot be loaded, `ctypes.CDLL` raises `OSError`, and when
`prctl` returns non-zero the `assert` raises — both before the `try` block,
so the exception escapes and `fn` is never invoked.  This matches the
claim's and the source comment's intent, not the code: a code bug. -/
theorem C7_pdeathsig_crashes_worker :
    pr_set_pdeathsig Platform.noLibc = PdeathsigResult.osError ∧
    pr_set_pdeathsig Platform.linuxPrctlFails =
      PdeathsigResult.assertionError ∧
    (wrapRun Platform.noLibc FnOutcome.normal).fnInvoked = false ∧
    (wrapRun Platform.noLibc FnOutcome.normal).behavior =
      WrapBehavior.propagates ∧
    (wrapRun Platform.noLibc FnOutcome.normal).writes = [] ∧
    (wrapRun Platform.linuxPrctlFails FnOutcome.normal).fnInvoked = false ∧
    (wrapRun Platform.linuxPrctlOk FnOutcome.normal).fnInvoked = true := by
  decide

/-- C8 counterexample: constructing the deprecated alias does not bind any
shifted fields — the duplicated `self` makes the call over-supply the base
initializer, which raises an arity `TypeError`, so no object results. -/
theorem C8_spawncontext_counterexample :
    spawnContextInitBind (PyVal.procList []) (PyVal.queueList []) =
      Except.error "TypeError: arity mismatch" ∧
    spawnContextInitBind (PyVal.procList []) (PyVal.queueList []) ≠
      Except.ok { processes_arg := PyVal.selfObj,
                  error_queues_arg := PyVal.procList [] } :=
  ⟨rfl, fun h => Except.noConfusion h⟩

/-- C8 (amended): `SpawnContext.__init__` passes `self` as a duplicate first
positional argument, so for every pair of arguments the base initializer
receives one positional argument too many and raises a `TypeError`; no
object is constructed, hence `SpawnContext(processes, error_queues)` is
never equivalent to `ProcessContext(processes, error_queues)`, which binds
its two arguments successfully. -/
theorem C8_spawncontext_arity_error (processes error_queues : PyVal) :
    spawnContextInitBind processes error_queues =
      Except.error "TypeError: arity mismatch" ∧
    processContextInitBind [processes, error_queues] =
      Except.ok { processes_arg := processes,
                  error_queues_arg := error_queues } ∧
    spawnContextInitBind processes error_queues ≠
      processContextInitBind [processes, error_queues] := by
  refine ⟨rfl, rfl, ?_⟩
  intro h
  exact Except.noConfusion h

/-- C9: the wrapper's ladder catches only ordinary exceptions: a
`BaseException` that is neither `Exception` nor `KeyboardInterrupt` leaves
the channel unwritten and does not force exit 1 (it propagates), so when
`join` later designates that worker it classifies purely by exit status;
`KeyboardInterrupt` alone is swallowed as clean cancellation. -/
theorem C9_base_exception_passthrough (ctx : ProcessContext)
    (ready : List Nat) (ge : Nat → Option String) (out : JoinOutput)
    (k : Nat) (p : Process)
    (hp : ctx.processes.get? k = some p)
    (hq : ctx.error_queues.get? k =
      some (wrapBody FnOutcome.otherBase).writes)
    (hj : ctx.join ready ge = some out)
    (hk : out.errorIndex = some k) :
    (wrapBody FnOutcome.otherBase).writes = [] ∧
    (wrapBody FnOutcome.otherBase).behavior = WrapBehavior.propagates ∧
    (wrapBody FnOutcome.keyboardInterrupt).writes = [] ∧
    (wrapBody FnOutcome.keyboardInterrupt).behavior =
      WrapBehavior.returns ∧
    (p.exitcode < 0 →
      out.result = JoinResult.raise (FailureRecord.signaled k p.pid
        (signalName (-p.exitcode)) (ge p.pid))) ∧
    (0 ≤ p.exitcode →
      out.result = JoinResult.raise (FailureRecord.exited k p.pid
        p.exitcode (ge p.pid))) := by
  obtain ⟨-, -, -, -, -, hfail⟩ := join_spec ctx ready ge out hj
  obtain ⟨p', q, hp', hq', -, -, -, hqnil, -⟩ := hfail k hk
  have hpp : p' = p := by
    rw [hp] at hp'
    exact (Option.some.inj hp').symm
  subst hpp
  have hqn : q = [] := by
    rw [hq] at hq'
    exact (Option.some.inj hq').symm
  obtain ⟨-, -, hsig, hexi⟩ := hqnil hqn
  exact ⟨rfl, rfl, rfl, rfl, hsig, hexi⟩

/-- Witness for C9: a worker whose escaped `SystemExit` made the process
exit 9 with an empty channel; join classifies it as exited-non-zero. -/
theorem C9_base_exception_passthrough_witness :
    ctxExited.processes.get? 0 = some pExited ∧
    ctxExited.error_queues.get? 0 =
      some (wrapBody FnOutcome.otherBase).writes ∧
    ctxExited.join [3] geNone = some outExited ∧
    outExited.errorIndex = some 0 ∧
    ((wrapBody FnOutcome.otherBase).writes = [] ∧
    (wrapBody FnOutcome.otherBase).behavior = WrapBehavior.propagates ∧
    (wrapBody FnOutcome.keyboardInterrupt).writes = [] ∧
    (wrapBody FnOutcome.keyboardInterrupt).behavior =
      WrapBehavior.returns ∧
    (pExited.exitcode < 0 →
      outExited.result = JoinResult.raise (FailureRecord.signaled 0
        pExited.pid (signalName (-pExited.exitcode)) (geNone pExited.pid))) ∧
    (0 ≤ pExited.exitcode →
      outExited.result = JoinResult.raise (FailureRecord.exited 0
        pExited.pid pExited.exitcode (geNone pExited.pid)))) :=
  ⟨rfl, rfl, rfl, rfl, C9_base_exception_passthrough ctxExited [3] geNone
    outExited 0 pExited rfl rfl rfl rfl⟩

/-- C10: one `join` call reads (`get`) at most one failure channel — the
designated failing worker's, and only when it holds a message; every other
channel's contents are left unchanged. -/
theorem C10_channel_frame (ctx : ProcessContext) (ready : List Nat)
    (ge : Nat → Option String) (out : JoinOutput)
    (hj : ctx.join ready ge = some out) :
    out.queueReads.length ≤ 1 ∧
    (∀ i ∈ out.queueReads, out.errorIndex = some i ∧
      ∃ p t rest, ctx.processes.get? i = some p ∧ p.exitcode ≠ 0 ∧
        ctx.error_queues.get? i = some (t :: rest)) ∧
    (∀ j, j ∉ out.queueReads →
      out.error_queues.get? j = ctx.error_queues.get? j) := by
  obtain ⟨-, -, -, hnone, -, hfail⟩ := join_spec ctx ready ge out hj
  cases hEI : out.errorIndex with
  | none =>
    obtain ⟨hqe, -, hqr, -, -⟩ := hnone hEI
    refine ⟨by simp [hqr], ?_, ?_⟩
    · intro i hi
      rw [hqr] at hi
      cases hi
    · intro j hj'
      rw [hqe]
  | some i =>
    obtain ⟨p, q, hp, hq, hex, -, -, hqnil, hqcons⟩ := hfail i hEI
    cases q with
    | nil =>
      obtain ⟨hqr, hqe, -, -⟩ := hqnil rfl
      refine ⟨by simp [hqr], ?_, ?_⟩
      · intro i' hi'
        rw [hqr] at hi'
        cases hi'
      · intro j hj'
        rw [hqe]
    | cons t rest =>
      obtain ⟨hqr, hqe, -⟩ := hqcons t rest rfl
      refine ⟨by simp [hqr], ?_, ?_⟩
      · intro i' hi'
        rw [hqr] at hi'
        obtain rfl : i' = i := by simpa using hi'
        exact ⟨rfl, p, t, rest, hp, hex, hq⟩
      · intro j hj'
        rw [hqr] at hj'
        have hne : i ≠ j := fun he => hj' (by simp [he])
        rw [hqe]
        exact List.get?_set_ne rest ctx.error_queues hne

/-- Witness for C10 at the concrete raising context: one channel read. -/
theorem C10_channel_frame_witness :
    ctxRaised.join [7] geNone = some outRaised ∧
    (outRaised.queueReads.length ≤ 1 ∧
    (∀ i ∈ outRaised.queueReads, outRaised.errorIndex = some i ∧
      ∃ p t rest, ctxRaised.processes.get? i = some p ∧ p.exitcode ≠ 0 ∧
        ctxRaised.error_queues.get? i = some (t :: rest)) ∧
    (∀ j, j ∉ outRaised.queueReads →
      outRaised.error_queues.get? j = ctxRaised.error_queues.get? j)) :=
  ⟨rfl, C10_channel_frame ctxRaised [7] geNone outRaised rfl⟩

end TorchElasticSpawn
